import Mathlib

/-!
Shallow embedding of `zeroconf/_protocol/incoming.py` (class `DNSIncoming`):
decoding of an incoming DNS/mDNS message — header, questions, resource
records, DNS name decompression with a per-message offset cache and a
per-name visited-pointer set, and the NSEC bitmap decoder.

Modelling conventions:
* a byte buffer is a `List Nat` (each entry a byte value);
* label strings are kept as their raw byte sequences: the lossy
  `decode('utf-8', 'replace')` applied by the source is a total function of
  those bytes and is not modelled; the dotted-name length used for the
  253-byte check is counted in bytes, which coincides with the source's
  character count for ASCII labels;
* the HINFO character strings are likewise kept as raw bytes;
* Python exceptions (`IndexError`, `struct.error`, `IncomingDecodeError`)
  become an `Except Err` result; state that the source mutates on `self`
  before an exception propagates is returned alongside the error;
* timestamps (`now`), the source address and diagnostic logging carry no
  decoded information and are not modelled;
* the recursion of `_decode_labels_at_offset` is given explicit fuel (one
  unit per loop iteration and per followed pointer); `fuelFor` supplies
  enough fuel that exhaustion is unreachable (proved below).
-/

namespace Zeroconf

/-- Decode failures: the members of `DECODE_EXCEPTIONS` in the source
(`IndexError`, `struct.error`, `IncomingDecodeError`), plus `fuelOut`
marking exhaustion of the explicit recursion fuel, which never occurs for
the fuel supplied by `readName`. -/
inductive Err
  | indexError
  | structError
  | decodeError
  | fuelOut
deriving DecidableEq

instance {ε : Type u} {α : Type v} [DecidableEq ε] [DecidableEq α] :
    DecidableEq (Except ε α)
  | .ok a, .ok b =>
    if h : a = b then isTrue (by rw [h]) else isFalse (by intro hc; cases hc; exact h rfl)
  | .ok _, .error _ => isFalse (by intro hc; cases hc)
  | .error _, .ok _ => isFalse (by intro hc; cases hc)
  | .error e, .error f =>
    if h : e = f then isTrue (by rw [h]) else isFalse (by intro hc; cases hc; exact h rfl)

abbrev Bytes := List Nat

/-- A decoded DNS name as its list of labels, each label a byte sequence. -/
abbrev Labels := List (List Nat)

/-- `self.name_cache : Dict[int, List[str]]`, as an association list; an
assignment prepends, and lookup takes the most recent binding. -/
abbrev Cache := List (Nat × Labels)

def cacheGet : Cache → Nat → Option Labels
  | [], _ => none
  | (k, v) :: rest, k2 => if k = k2 then some v else cacheGet rest k2

def cacheSet (c : Cache) (k : Nat) (v : Labels) : Cache := (k, v) :: c

/-- Python `data[i]` on `bytes`: `IndexError` when out of range. -/
def byteAt (data : Bytes) (i : Nat) : Except Err Nat :=
  if i < data.length then .ok (data.getD i 0) else .error .indexError

/-- Python slice `data[i : i + n]`: total, possibly shorter than `n`. -/
def slice (data : Bytes) (i n : Nat) : Bytes := (data.drop i).take n

/-- One big-endian 16-bit field at `i` (bounds are checked by callers,
matching `struct.unpack_from`). -/
def u16 (data : Bytes) (i : Nat) : Nat := data.getD i 0 * 256 + data.getD (i + 1) 0

/-- One big-endian 32-bit field at `i`. -/
def u32 (data : Bytes) (i : Nat) : Nat :=
  data.getD i 0 * 16777216 + data.getD (i + 1) 0 * 65536 +
    data.getD (i + 2) 0 * 256 + data.getD (i + 3) 0

/-- struct format `!i`: the 32-bit value reinterpreted as a signed
(two's-complement) integer. -/
def toSigned32 (v : Nat) : Int := if v < 2147483648 then (v : Int) else (v : Int) - 4294967296

/-- `UNPACK_6H = struct.Struct(b'!6H').unpack_from`: `struct.error` when
fewer than 12 bytes remain at the offset. -/
def unpack6H (data : Bytes) (i : Nat) : Except Err (Nat × Nat × Nat × Nat × Nat × Nat) :=
  if i + 12 ≤ data.length then
    .ok (u16 data i, u16 data (i + 2), u16 data (i + 4),
      u16 data (i + 6), u16 data (i + 8), u16 data (i + 10))
  else .error .structError

/-- `UNPACK_HH = struct.Struct(b'!HH').unpack_from`. -/
def unpackHH (data : Bytes) (i : Nat) : Except Err (Nat × Nat) :=
  if i + 4 ≤ data.length then .ok (u16 data i, u16 data (i + 2)) else .error .structError

/-- `UNPACK_3H = struct.Struct(b'!3H').unpack_from`. -/
def unpack3H (data : Bytes) (i : Nat) : Except Err (Nat × Nat × Nat) :=
  if i + 6 ≤ data.length then
    .ok (u16 data i, u16 data (i + 2), u16 data (i + 4))
  else .error .structError

/-- `UNPACK_HHiH = struct.Struct(b'!HHiH').unpack_from`: type, class,
signed TTL, rdlength. -/
def unpackHHiH (data : Bytes) (i : Nat) : Except Err (Nat × Nat × Int × Nat) :=
  if i + 10 ≤ data.length then
    .ok (u16 data i, u16 data (i + 2), toSigned32 (u32 data (i + 4)), u16 data (i + 8))
  else .error .structError

def MAX_DNS_LABELS : Nat := 128
def MAX_NAME_LENGTH : Nat := 253

/-- Modelled from the spec: the numeric DNS record type codes are imported
by the source from `zeroconf.const`, which is not part of the given source
files; the spec (section 6) says they are the values defined by standard
DNS for A, CNAME, PTR, TXT, SRV, HINFO, AAAA and NSEC. -/
def TYPE_A : Nat := 1
def TYPE_CNAME : Nat := 5
def TYPE_PTR : Nat := 12
def TYPE_HINFO : Nat := 13
def TYPE_TXT : Nat := 16
def TYPE_AAAA : Nat := 28
def TYPE_SRV : Nat := 33
def TYPE_NSEC : Nat := 47

/-- Modelled from the spec: the flag constants come from `zeroconf.const`,
which is not part of the given source files; the spec (section 6) defines
`is_query` as true iff the QR bit of `flags` is clear, `is_response` as
true iff the QR bit is set, and `truncated` by the TC bit, both at their
standard DNS bit positions (QR = bit 15, TC = bit 9), so
`_FLAGS_QR_MASK = 0x8000`, `_FLAGS_QR_QUERY = 0x0000`,
`_FLAGS_QR_RESPONSE = 0x8000`, `_FLAGS_TC = 0x0200`. -/
def FLAGS_QR_MASK : Nat := 0x8000
def FLAGS_QR_QUERY : Nat := 0x0000
def FLAGS_QR_RESPONSE : Nat := 0x8000
def FLAGS_TC : Nat := 0x0200

/-- `DNSIncoming._decode_labels_at_offset`, with explicit recursion fuel
(one unit per while-loop iteration and per followed compression pointer)
and explicit threading of the label list, the per-name visited-pointer
set and the name cache.  All state components are also returned on
failure, mirroring mutations of `self.name_cache` and of the shared
`seen_pointers` set that survive a raised exception; the caller's label
list is only extended where the source extends it. -/
def decodeLabelsAt (data : Bytes) :
    Nat → Nat → Labels → List Nat → Cache → Except Err Nat × Labels × List Nat × Cache
  | 0, _, labels, seen, cache => (.error .fuelOut, labels, seen, cache)
  | fuel + 1, off, labels, seen, cache =>
    if off < data.length then
      if data.getD off 0 = 0 then (.ok (off + 1), labels, seen, cache)
      else if data.getD off 0 < 0x40 then
        decodeLabelsAt data fuel (off + 1 + data.getD off 0)
          (labels ++ [slice data (off + 1) (data.getD off 0)]) seen cache
      else if data.getD off 0 < 0xC0 then (.error .decodeError, labels, seen, cache)
      else if off + 1 < data.length then
        if data.getD off 0 % 0x40 * 256 + data.getD (off + 1) 0 > data.length then
          (.error .decodeError, labels, seen, cache)
        else if data.getD off 0 % 0x40 * 256 + data.getD (off + 1) 0 = off then
          (.error .decodeError, labels, seen, cache)
        else if data.getD off 0 % 0x40 * 256 + data.getD (off + 1) 0 ∈ seen then
          (.error .decodeError, labels, seen, cache)
        else if (cacheGet cache (data.getD off 0 % 0x40 * 256 + data.getD (off + 1) 0)).getD []
            = [] then
          match decodeLabelsAt data fuel
              (data.getD off 0 % 0x40 * 256 + data.getD (off + 1) 0) []
              ((data.getD off 0 % 0x40 * 256 + data.getD (off + 1) 0) :: seen) cache with
          | (.ok _, linked, seen2, cache2) =>
            if (labels ++ linked).length > MAX_DNS_LABELS then
              (.error .decodeError, labels ++ linked, seen2,
                cacheSet cache2 (data.getD off 0 % 0x40 * 256 + data.getD (off + 1) 0) linked)
            else
              (.ok (off + 2), labels ++ linked, seen2,
                cacheSet cache2 (data.getD off 0 % 0x40 * 256 + data.getD (off + 1) 0) linked)
          | (.error e, _, seen2, cache2) => (.error e, labels, seen2, cache2)
        else
          if (labels ++ (cacheGet cache
                (data.getD off 0 % 0x40 * 256 + data.getD (off + 1) 0)).getD []).length >
              MAX_DNS_LABELS then
            (.error .decodeError,
              labels ++ (cacheGet cache
                (data.getD off 0 % 0x40 * 256 + data.getD (off + 1) 0)).getD [], seen, cache)
          else
            (.ok (off + 2),
              labels ++ (cacheGet cache
                (data.getD off 0 % 0x40 * 256 + data.getD (off + 1) 0)).getD [], seen, cache)
      else (.error .indexError, labels, seen, cache)
    else (.error .decodeError, labels, seen, cache)

/-- Fuel that always suffices for `decodeLabelsAt` on `data` (see the
fuel-sufficiency theorem below). -/
def fuelFor (data : Bytes) : Nat := (data.length + 2) ^ 2

/-- Byte length of `'.'.join(labels) + '.'` (equals the source's character
count for ASCII labels). -/
def nameLen (labels : Labels) : Nat := (labels.map List.length).sum + max labels.length 1

/-- `DNSIncoming._read_name`: decode labels at the current offset with a
fresh label list and visited set, cache the result at the starting offset,
then fail when the dotted name exceeds `MAX_NAME_LENGTH`.  Returns
(result, new offset, new cache); on a label-decoding failure the offset is
the original one and the starting offset is not cached, while on a
length-check failure the offset has already advanced and the name has
already been cached, as in the source. -/
def readName (data : Bytes) (off : Nat) (cache : Cache) : Except Err Labels × Nat × Cache :=
  match decodeLabelsAt data (fuelFor data) off [] [] cache with
  | (.ok newOff, labels, _, cache2) =>
    let cache3 := cacheSet cache2 off labels
    if nameLen labels > MAX_NAME_LENGTH then (.error .decodeError, newOff, cache3)
    else (.ok labels, newOff, cache3)
  | (.error e, _, _, cache2) => (.error e, off, cache2)

/-- `DNSQuestion(name, type, class)` as stored by `_read_questions`. -/
structure DNSQuestion where
  name : Labels
  qtype : Nat
  qclass : Nat
deriving DecidableEq

/-- The record values produced by `_read_record`: one variant per record
family constructed there (`DNSAddress`, `DNSPointer`, `DNSText`,
`DNSService`, `DNSHinfo`, `DNSNsec`). -/
inductive DNSRecord
  | address (name : Labels) (qtype qclass : Nat) (ttl : Int) (addr : Bytes)
      (scopeId : Option Nat)
  | pointer (name : Labels) (qtype qclass : Nat) (ttl : Int) (target : Labels)
  | text (name : Labels) (qtype qclass : Nat) (ttl : Int) (txt : Bytes)
  | service (name : Labels) (qtype qclass : Nat) (ttl : Int)
      (priority weight port : Nat) (server : Labels)
  | hinfo (name : Labels) (qtype qclass : Nat) (ttl : Int) (cpu os : Bytes)
  | nsec (name : Labels) (qtype qclass : Nat) (ttl : Int) (nextName : Labels)
      (rdtypes : List Nat)
deriving DecidableEq

/-- `DNSIncoming._read_character_string`: a length byte (with bounds
check) followed by a truncating slice read. -/
def readCharacterString (data : Bytes) (off : Nat) : Except Err (Bytes × Nat) :=
  match byteAt data off with
  | .ok l => .ok (slice data (off + 1) l, off + 1 + l)
  | .error e => .error e

/-- The inner double loop of `_read_bitmap` for one window: for each byte
(by index) and each bit scanned most-significant-bit first, emit
`bit + window * 256 + i * 8` when the bit is set.  The source's
`enumerate` over the bitmap slice is rendered as an index range. -/
def bitmapTypes (window : Nat) (bs : Bytes) : List Nat :=
  (List.range bs.length).flatMap fun i =>
    ((List.range 8).filter fun bit => (bs.getD i 0) &&& (0x80 >>> bit) != 0).map fun bit =>
      bit + window * 256 + i * 8

/-- `DNSIncoming._read_bitmap`: while the offset is below `end2`, read a
window byte and a length byte (either may raise `IndexError`), then the
window's bitmap bytes as a truncating slice, and advance by
`2 + bitmap_length`.  Fuel counts loop iterations; each iteration advances
the offset by at least 2, so `end2 - off + 1` units always suffice (proved
below). -/
def readBitmap (data : Bytes) : Nat → Nat → Nat → Except Err (List Nat × Nat)
  | 0, _, _ => .error .fuelOut
  | fuel + 1, off, end2 =>
    if off < end2 then
      match byteAt data off, byteAt data (off + 1) with
      | .ok window, .ok blen =>
        match readBitmap data fuel (off + 2 + blen) end2 with
        | .ok (rest, fin) => .ok (bitmapTypes window (slice data (off + 2) blen) ++ rest, fin)
        | .error e => .error e
      | _, _ => .error .indexError
    else .ok ([], off)

/-- `DNSIncoming._read_record`: dispatch on the record type, in the
source's order of checks; unknown types skip `len2` bytes and produce no
record.  Returns (record option or error, new offset, new cache); the
offset returned with an error reproduces the `self.offset` mutations that
happened before the exception (the caller overwrites it anyway). -/
def readRecord (data : Bytes) (scopeId : Option Nat) (domain : Labels)
    (type2 qclass : Nat) (ttl : Int) (len2 off : Nat) (cache : Cache) :
    Except Err (Option DNSRecord) × Nat × Cache :=
  if type2 = TYPE_A then
    (.ok (some (.address domain type2 qclass ttl (slice data off 4) none)), off + 4, cache)
  else if type2 = TYPE_CNAME ∨ type2 = TYPE_PTR then
    match readName data off cache with
    | (.ok target, off2, cache2) => (.ok (some (.pointer domain type2 qclass ttl target)), off2, cache2)
    | (.error e, off2, cache2) => (.error e, off2, cache2)
  else if type2 = TYPE_TXT then
    (.ok (some (.text domain type2 qclass ttl (slice data off len2))), off + len2, cache)
  else if type2 = TYPE_SRV then
    match unpack3H data off with
    | .ok (prio, weight, port) =>
      match readName data (off + 6) cache with
      | (.ok server, off2, cache2) =>
        (.ok (some (.service domain type2 qclass ttl prio weight port server)), off2, cache2)
      | (.error e, off2, cache2) => (.error e, off2, cache2)
    | .error e => (.error e, off + 6, cache)
  else if type2 = TYPE_HINFO then
    match readCharacterString data off with
    | .ok (cpu, off2) =>
      match readCharacterString data off2 with
      | .ok (os, off3) => (.ok (some (.hinfo domain type2 qclass ttl cpu os)), off3, cache)
      | .error e => (.error e, off2, cache)
    | .error e => (.error e, off, cache)
  else if type2 = TYPE_AAAA then
    (.ok (some (.address domain type2 qclass ttl (slice data off 16) scopeId)), off + 16, cache)
  else if type2 = TYPE_NSEC then
    match readName data off cache with
    | (.ok nextName, off2, cache2) =>
      match readBitmap data (off + len2 + 1) off2 (off + len2) with
      | .ok (types, off3) => (.ok (some (.nsec domain type2 qclass ttl nextName types)), off3, cache2)
      | .error e => (.error e, off2, cache2)
    | (.error e, off2, cache2) => (.error e, off2, cache2)
  else
    (.ok none, off + len2, cache)

/-- The loop body of `DNSIncoming._read_others`, iterated `n` times:
read a name, the fixed `!HHiH` prefix (read before the offset advances by
10), then the record; a failure inside `_read_record` is caught, the
offset is resynchronized to the record's declared end
(`off1 + 10 + rdlength`) and no record is appended, while a failure in the
name or prefix read aborts the loop, keeping the records accumulated so
far. -/
def readOthersLoop (data : Bytes) (scopeId : Option Nat) :
    Nat → Nat → Cache → List DNSRecord → Except Err Unit × Nat × Cache × List DNSRecord
  | 0, off, cache, acc => (.ok (), off, cache, acc)
  | n + 1, off, cache, acc =>
    match readName data off cache with
    | (.ok domain, off1, cache1) =>
      match unpackHHiH data off1 with
      | .ok (t, cl, ttl, len2) =>
        match readRecord data scopeId domain t cl ttl len2 (off1 + 10) cache1 with
        | (.ok orec, off3, cache2) =>
          readOthersLoop data scopeId n off3 cache2 (acc ++ orec.toList)
        | (.error _, _, cache2) =>
          readOthersLoop data scopeId n (off1 + 10 + len2) cache2 acc
      | .error e => (.error e, off1, cache1, acc)
    | (.error e, off1, cache1) => (.error e, off1, cache1, acc)

set_option synthInstance.maxHeartbeats 1000000 in
/-- The object state of `DNSIncoming` (decoded fields plus cursor, cache
and output sequences); `answers` is the `_answers` slot. -/
structure Packet where
  data : Bytes
  offset : Nat
  nameCache : Cache
  questions : List DNSQuestion
  answers : List DNSRecord
  id : Nat
  flags : Nat
  numQuestions : Nat
  numAnswers : Nat
  numAuthorities : Nat
  numAdditionals : Nat
  valid : Bool
  didReadOthers : Bool
  scopeId : Option Nat
deriving DecidableEq

/-- `DNSIncoming._read_header` via `self._unpack(UNPACK_6H, 12)`: the
offset advances by 12 before the unpack, so it is advanced even when the
unpack fails; the six header fields are assigned together only on
success. -/
def readHeader (st : Packet) : Except Err Unit × Packet :=
  let st2 := { st with offset := st.offset + 12 }
  match unpack6H st.data st.offset with
  | .ok (i, f, q, a, au, ad) =>
    (.ok (), { st2 with
                id := i, flags := f, numQuestions := q, numAnswers := a,
                numAuthorities := au, numAdditionals := ad })
  | .error e => (.error e, st2)

/-- One question of `_read_questions`: a name, then
`self._unpack(UNPACK_HH, 4)` (offset advanced by 4 before the unpack),
iterated `n` times. -/
def readQuestionsLoop (data : Bytes) :
    Nat → Nat → Cache → Except Err (List DNSQuestion) × Nat × Cache
  | 0, off, cache => (.ok [], off, cache)
  | n + 1, off, cache =>
    match readName data off cache with
    | (.ok labels, off1, cache1) =>
      match unpackHH data off1 with
      | .ok (t, c) =>
        match readQuestionsLoop data n (off1 + 4) cache1 with
        | (.ok qs, off2, cache2) => (.ok (⟨labels, t, c⟩ :: qs), off2, cache2)
        | (.error e, off2, cache2) => (.error e, off2, cache2)
      | .error e => (.error e, off1 + 4, cache1)
    | (.error e, off1, cache1) => (.error e, off1, cache1)

/-- `DNSIncoming._read_questions`: the question list is built by a list
comprehension and assigned to `self.questions` only after the whole
comprehension succeeds; on failure the previous value of `questions` is
kept while the offset and name-cache mutations persist. -/
def readQuestions (st : Packet) : Except Err Unit × Packet :=
  match readQuestionsLoop st.data st.numQuestions st.offset st.nameCache with
  | (.ok qs, off, c) => (.ok (), { st with questions := qs, offset := off, nameCache := c })
  | (.error e, off, c) => (.error e, { st with offset := off, nameCache := c })

/-- `DNSIncoming._read_others`: sets `_did_read_others` first (even if the
loop later fails), then decodes the combined
answers + authorities + additionals count, appending to `_answers`. -/
def readOthers (st : Packet) : Except Err Unit × Packet :=
  match readOthersLoop st.data st.scopeId
      (st.numAnswers + st.numAuthorities + st.numAdditionals)
      st.offset st.nameCache st.answers with
  | (.ok _, off, c, ans) =>
    (.ok (), { st with didReadOthers := true, offset := off, nameCache := c, answers := ans })
  | (.error e, off, c, ans) =>
    (.error e, { st with didReadOthers := true, offset := off, nameCache := c, answers := ans })

/-- `DNSIncoming._initial_parse`: header, questions, then — only when the
header declared zero questions — the record section; `valid` is set to
true only after all of those steps completed without an exception. -/
def initialParse (st : Packet) : Except Err Unit × Packet :=
  match readHeader st with
  | (.error e, st1) => (.error e, st1)
  | (.ok _, st1) =>
    match readQuestions st1 with
    | (.error e, st2) => (.error e, st2)
    | (.ok _, st2) =>
      if st2.numQuestions = 0 then
        match readOthers st2 with
        | (.error e, st3) => (.error e, st3)
        | (.ok _, st3) => (.ok (), { st3 with valid := true })
      else (.ok (), { st2 with valid := true })

/-- The field values set by `DNSIncoming.__init__` before `_initial_parse`
runs. -/
def initState (data : Bytes) (scopeId : Option Nat) : Packet :=
  { data := data, offset := 0, nameCache := [], questions := [], answers := [],
    id := 0, flags := 0, numQuestions := 0, numAnswers := 0, numAuthorities := 0,
    numAdditionals := 0, valid := false, didReadOthers := false, scopeId := scopeId }

/-- `DNSIncoming.__init__`: run `_initial_parse` and swallow (log) any
member of `DECODE_EXCEPTIONS`, keeping the partially mutated state. -/
def mkIncoming (data : Bytes) (scopeId : Option Nat) : Packet :=
  (initialParse (initState data scopeId)).2

/-- The `answers` property: run `_read_others` on first access (swallowing
decode errors), afterwards return the stored `_answers` list. -/
def answersGet (st : Packet) : List DNSRecord × Packet :=
  if st.didReadOthers then (st.answers, st)
  else
    let st2 := (readOthers st).2
    (st2.answers, st2)

/-- `DNSIncoming.is_query`. -/
def isQuery (st : Packet) : Bool := st.flags &&& FLAGS_QR_MASK == FLAGS_QR_QUERY

/-- `DNSIncoming.is_response`. -/
def isResponse (st : Packet) : Bool := st.flags &&& FLAGS_QR_MASK == FLAGS_QR_RESPONSE

/-- The `truncated` property. -/
def truncated (st : Packet) : Bool := st.flags &&& FLAGS_TC == FLAGS_TC

/-! ### State-preservation helper lemmas -/

lemma readHeader_pres (st : Packet) :
    (readHeader st).2.valid = st.valid ∧
    (readHeader st).2.didReadOthers = st.didReadOthers ∧
    (readHeader st).2.answers = st.answers := by
  unfold readHeader
  cases unpack6H st.data st.offset with
  | ok v => obtain ⟨i, f, q, a, au, ad⟩ := v; exact ⟨rfl, rfl, rfl⟩
  | error e => exact ⟨rfl, rfl, rfl⟩

lemma readQuestions_pres (st : Packet) :
    (readQuestions st).2.valid = st.valid ∧
    (readQuestions st).2.didReadOthers = st.didReadOthers ∧
    (readQuestions st).2.answers = st.answers ∧
    (readQuestions st).2.numQuestions = st.numQuestions := by
  unfold readQuestions
  rcases h : readQuestionsLoop st.data st.numQuestions st.offset st.nameCache with ⟨r, off, c⟩
  cases r with
  | ok qs => exact ⟨rfl, rfl, rfl, rfl⟩
  | error e => exact ⟨rfl, rfl, rfl, rfl⟩

lemma readOthers_pres (st : Packet) :
    (readOthers st).2.valid = st.valid ∧
    (readOthers st).2.numQuestions = st.numQuestions ∧
    (readOthers st).2.didReadOthers = true := by
  unfold readOthers
  rcases h : readOthersLoop st.data st.scopeId
      (st.numAnswers + st.numAuthorities + st.numAdditionals)
      st.offset st.nameCache st.answers with ⟨r, off, c, ans⟩
  cases r with
  | ok u => exact ⟨rfl, rfl, rfl⟩
  | error e => exact ⟨rfl, rfl, rfl⟩

/-! ### C1 -/

/-- Input for the C1 counterexample: a well-formed 12-byte header that
declares zero questions and one answer, followed by no record data at
all, so that the eager record-section parse performed by
`_initial_parse` for zero-question messages fails. -/
def c1data : Bytes := [0, 0, 0, 0, 0, 0, 0, 1, 0, 0, 0, 0]

/-- C1 counterexample: on `c1data`, header parsing and question-section
parsing both complete without error, yet `valid` is false, because the
record section is parsed eagerly (the header declares zero questions) and
its failure aborts `_initial_parse` before `valid` is set.  This refutes
the claim that a record-section decode error never causes `valid` to be
false. -/
theorem C1_counterexample :
    (readHeader (initState c1data none)).1 = .ok () ∧
    (readQuestions (readHeader (initState c1data none)).2).1 = .ok () ∧
    (mkIncoming c1data none).valid = false := by
  refine ⟨rfl, rfl, rfl⟩

/-- C1 amended: `valid` is true iff header parsing and question-section
parsing completed without a fatal decode error AND, in the case where the
header declares zero questions, the eagerly executed record-section parse
also completed without error.  (When at least one question is declared
the record section is not parsed during construction at all, so its
errors cannot clear `valid`.) -/
theorem C1_amended (data : Bytes) (scope : Option Nat) :
    (mkIncoming data scope).valid = true ↔
      ∃ st1 st2, readHeader (initState data scope) = (.ok (), st1) ∧
        readQuestions st1 = (.ok (), st2) ∧
        (st2.numQuestions = 0 → (readOthers st2).1 = .ok ()) := by
  unfold mkIncoming initialParse
  split
  next e st1 heq1 =>
    constructor
    · intro hv
      have hv1 : st1.valid = false := by
        have h := (readHeader_pres (initState data scope)).1
        rw [heq1] at h
        exact h
      have hv2 : st1.valid = true := hv
      rw [hv1] at hv2
      cases hv2
    · rintro ⟨st1b, st2b, hh, -, -⟩
      rw [heq1] at hh
      simp at hh
  next v1 st1 heq1 =>
    cases v1
    split
    next e st2 heq2 =>
      constructor
      · intro hv
        have hv2 : st2.valid = true := hv
        have hq2 := (readQuestions_pres st1).1
        rw [heq2] at hq2
        have hh1 := (readHeader_pres (initState data scope)).1
        rw [heq1] at hh1
        rw [hv2] at hq2
        rw [← hq2] at hh1
        cases hh1
      · rintro ⟨st1b, st2b, hh, hqq, -⟩
        rw [heq1] at hh
        simp only [Prod.mk.injEq, Except.ok.injEq] at hh
        rw [← hh.2, heq2] at hqq
        simp at hqq
    next v2 st2 heq2 =>
      cases v2
      split
      next hq =>
        split
        next e st3 heq3 =>
          constructor
          · intro hv
            have hv3 : st3.valid = true := hv
            have ho3 := (readOthers_pres st2).1
            rw [heq3] at ho3
            have hq2 := (readQuestions_pres st1).1
            rw [heq2] at hq2
            have hh1 := (readHeader_pres (initState data scope)).1
            rw [heq1] at hh1
            have : st3.valid = false := by
              rw [ho3, hq2, hh1]
              rfl
            rw [hv3] at this
            cases this
          · rintro ⟨st1b, st2b, hh, hqq, himp⟩
            rw [heq1] at hh
            simp only [Prod.mk.injEq, Except.ok.injEq] at hh
            rw [← hh.2, heq2] at hqq
            simp only [Prod.mk.injEq, Except.ok.injEq] at hqq
            have h0 := himp (by rw [← hqq.2]; exact hq)
            rw [← hqq.2, heq3] at h0
            simp at h0
        next v3 st3 heq3 =>
          cases v3
          constructor
          · intro _
            exact ⟨st1, st2, heq1, heq2, fun _ => by rw [heq3]⟩
          · intro _
            rfl
      next hq =>
        constructor
        · intro _
          exact ⟨st1, st2, heq1, heq2, fun h0 => absurd h0 hq⟩
        · intro _
          rfl

/-! ### C2 -/

/-- Input for C2: a header declaring zero questions and three answers;
record 1 is an A record named `a.` with address bytes `[10, 11, 12, 13]`;
record 2 is a PTR record named `b.` whose rdata (one byte, `0x40`, an
unsupported label-type indicator) is corrupt while its rdlength (1) is
correct; record 3 is an A record named `c.` with address bytes
`[20, 21, 22, 23]`.  Record 2's fixed prefix ends at offset 42 and its
declared end is offset 43, where record 3 begins. -/
def c2data : Bytes :=
  [0, 0, 0, 0, 0, 0, 0, 3, 0, 0, 0, 0] ++
  [1, 97, 0, 0, 1, 0, 1, 0, 0, 0, 0, 0, 4, 10, 11, 12, 13] ++
  [1, 98, 0, 0, 12, 0, 1, 0, 0, 0, 0, 0, 1, 64] ++
  [1, 99, 0, 0, 1, 0, 1, 0, 0, 0, 0, 0, 4, 20, 21, 22, 23]

/-- C2: on `c2data` (three declared answers, the second with a corrupt
type-specific payload but correct rdlength), decoding yields exactly the
first and third records, `valid` stays true, and after processing the
first two records the cursor sits at offset 43 — the failed record's
declared end (its prefix ends at 32, `32 + 10 + rdlength 1 = 43`) — which
is exactly where the third record is then decoded. -/
theorem C2_recovery :
    (mkIncoming c2data none).valid = true ∧
    (mkIncoming c2data none).answers =
      [.address [[97]] TYPE_A 1 0 [10, 11, 12, 13] none,
       .address [[99]] TYPE_A 1 0 [20, 21, 22, 23] none] ∧
    (readOthersLoop c2data none 2 12 [] []).2.1 = 43 := by
  refine ⟨by decide, by decide, by decide⟩

/-! ### C4 -/

/-- Input for the C4 counterexample: a header declaring two questions,
one complete question (`a.`, type 1, class 1), then a second question
whose name is truncated by the end of the buffer. -/
def c4data : Bytes := [0, 0, 0, 0, 0, 2, 0, 0, 0, 0, 0, 0, 1, 97, 0, 0, 1, 0, 1, 1]

/-- C4 counterexample: on `c4data` the first question decodes fine (the
one-iteration loop succeeds), the two-iteration loop fails on the second
question, and the resulting message has an EMPTY question list — the
already-decoded first question is NOT retained, because the source builds
the question list in a list comprehension whose assignment to
`self.questions` is skipped when the comprehension raises. -/
theorem C4_counterexample :
    (readQuestionsLoop c4data 1 12 []).1 = .ok [⟨[[97]], 1, 1⟩] ∧
    (readQuestionsLoop c4data 2 12 []).1 = .error .decodeError ∧
    (mkIncoming c4data none).questions = [] ∧
    (mkIncoming c4data none).valid = false := by
  refine ⟨rfl, rfl, rfl, rfl⟩

lemma readOthersLoop_answers_mono (data : Bytes) (scope : Option Nat) :
    ∀ (n off : Nat) (cache : Cache) (acc : List DNSRecord),
      ∃ tail, (readOthersLoop data scope n off cache acc).2.2.2 = acc ++ tail := by
  intro n
  induction n with
  | zero =>
    intro off cache acc
    exact ⟨[], by simp [readOthersLoop]⟩
  | succ n ih =>
    intro off cache acc
    unfold readOthersLoop
    split
    next domain off1 cache1 heqn =>
      split
      next t cl ttl len2 hequ =>
        split
        next orec off3 cache2 heqr =>
          obtain ⟨tail, htail⟩ := ih off3 cache2 (acc ++ orec.toList)
          exact ⟨orec.toList ++ tail, by rw [htail, List.append_assoc]⟩
        next a off3x cache2 heqr =>
          exact ih (off1 + 10 + len2) cache2 acc
      next e hequ =>
        exact ⟨[], by simp⟩
    next e off1 cache1 heqn =>
      exact ⟨[], by simp⟩

/-- C4 amended: already-decoded RECORDS are retained — whatever happens
during the record loop (including an abort), the output record list
extends the input accumulator — but the question list is NOT a retained
prefix: when the question section fails, `questions` is left at its
previous value (the empty list from construction), discarding any
questions decoded before the failure. -/
theorem C4_amended (data : Bytes) (scope : Option Nat) (n off : Nat) (cache : Cache)
    (acc : List DNSRecord) (st st2 : Packet) (e : Err)
    (h : readQuestions st = (.error e, st2)) :
    (∃ tail, (readOthersLoop data scope n off cache acc).2.2.2 = acc ++ tail) ∧
    st2.questions = st.questions := by
  constructor
  · exact readOthersLoop_answers_mono data scope n off cache acc
  · unfold readQuestions at h
    split at h
    next qs off2 c2 heq => simp at h
    next e2 off2 c2 heq =>
      simp only [Prod.mk.injEq] at h
      rw [← h.2]

/-- C4 witness: the amended statement at a concrete input — a loop of two
records over `c4data` starting from an accumulator of one record, and a
concrete failing question section (`c1data`-style header with one
declared question and a truncated buffer). -/
theorem C4_amended_witness :
    (∃ tail, (readOthersLoop c4data none 2 12 [] []).2.2.2 = [] ++ tail) ∧
    (readQuestions { initState [192] none with numQuestions := 1 }).2.questions =
      { initState [192] none with numQuestions := 1 }.questions :=
  have h : readQuestions { initState [192] none with numQuestions := 1 } =
      (.error .indexError, { initState [192] none with numQuestions := 1 }) := by decide
  (C4_amended c4data none 2 12 [] [] _ _ .indexError h).imp id (fun h2 => h2)

/-! ### C5 -/

/-- Input for the C5 counterexample: a header declaring zero questions
and one answer, followed by one complete A record. -/
def c5data : Bytes :=
  [0, 0, 0, 0, 0, 0, 0, 1, 0, 0, 0, 0, 1, 97, 0, 0, 1, 0, 1, 0, 0, 0, 0, 0, 4, 1, 2, 3, 4]

/-- C5 counterexample: immediately after construction of `c5data` — with
no access to the record sequence at all — the record list is already
populated and `_did_read_others` is already set, because `_initial_parse`
eagerly decodes the record section whenever the header declares zero
questions.  This refutes the claim that the record sequence is populated
only on first access. -/
theorem C5_counterexample :
    (mkIncoming c5data none).didReadOthers = true ∧
    (mkIncoming c5data none).answers = [.address [[97]] TYPE_A 1 0 [1, 2, 3, 4] none] := by
  refine ⟨rfl, rfl⟩

/-- C5 amended: the record section is decoded eagerly during construction
when the header declares zero questions; when at least one question is
declared it is deferred (after construction `_did_read_others` is false
and the record list empty until `answers` is first accessed); and the
`answers` accessor is stable: accessing it again after any first access
returns the same cached list and leaves the state unchanged. -/
theorem C5_amended (data : Bytes) (scope : Option Nat) (st : Packet)
    (h : 0 < (mkIncoming data scope).numQuestions) :
    ((mkIncoming data scope).didReadOthers = false ∧
      (mkIncoming data scope).answers = []) ∧
    answersGet (answersGet st).2 = ((answersGet st).1, (answersGet st).2) := by
  constructor
  · revert h
    unfold mkIncoming initialParse
    split
    next e st1 heq1 =>
      intro h
      have hp1 := readHeader_pres (initState data scope)
      rw [heq1] at hp1
      exact ⟨hp1.2.1, hp1.2.2⟩
    next v1 st1 heq1 =>
      cases v1
      split
      next e st2 heq2 =>
        intro h
        have hp1 := readHeader_pres (initState data scope)
        rw [heq1] at hp1
        have hp2 := readQuestions_pres st1
        rw [heq2] at hp2
        exact ⟨hp2.2.1.trans hp1.2.1, hp2.2.2.1.trans hp1.2.2⟩
      next v2 st2 heq2 =>
        cases v2
        split
        next hq =>
          split
          next e st3 heq3 =>
            intro h
            exfalso
            have h2 : 0 < st3.numQuestions := h
            have hp3 := (readOthers_pres st2).2.1
            rw [heq3] at hp3
            rw [hp3, hq] at h2
            exact Nat.lt_irrefl 0 h2
          next v3 st3 heq3 =>
            intro h
            exfalso
            have h2 : 0 < st3.numQuestions := h
            have hp3 := (readOthers_pres st2).2.1
            rw [heq3] at hp3
            rw [hp3, hq] at h2
            exact Nat.lt_irrefl 0 h2
        next hq =>
          intro h
          have hp1 := readHeader_pres (initState data scope)
          rw [heq1] at hp1
          have hp2 := readQuestions_pres st1
          rw [heq2] at hp2
          exact ⟨hp2.2.1.trans hp1.2.1, hp2.2.2.1.trans hp1.2.2⟩
  · unfold answersGet
    by_cases hd : st.didReadOthers = true
    · rw [if_pos hd, if_pos hd]
    · rw [if_neg hd]
      have hp := (readOthers_pres st).2.2
      rw [if_pos hp]

/-- C5 witness: the amended statement at a concrete input — a bare header
declaring one question (so construction stops after the failing question
section with `numQuestions = 1`), and stability of `answers` from that
same constructed state. -/
theorem C5_amended_witness :
    ((mkIncoming [0, 0, 0, 0, 0, 1, 0, 0, 0, 0, 0, 0] none).didReadOthers = false ∧
      (mkIncoming [0, 0, 0, 0, 0, 1, 0, 0, 0, 0, 0, 0] none).answers = []) ∧
    answersGet (answersGet (mkIncoming [0, 0, 0, 0, 0, 1, 0, 0, 0, 0, 0, 0] none)).2 =
      ((answersGet (mkIncoming [0, 0, 0, 0, 0, 1, 0, 0, 0, 0, 0, 0] none)).1,
       (answersGet (mkIncoming [0, 0, 0, 0, 0, 1, 0, 0, 0, 0, 0, 0] none)).2) :=
  C5_amended [0, 0, 0, 0, 0, 1, 0, 0, 0, 0, 0, 0] none
    (mkIncoming [0, 0, 0, 0, 0, 1, 0, 0, 0, 0, 0, 0] none) (by decide)

/-! ### C8 -/

/-- C8 counterexample: with the QR mask being the single bit `0x8000`,
the flag value `0x4000` (high bits `01`) satisfies `is_query`, and
`0xC000` (high bits `11`) satisfies `is_response` — refuting the claim
that the patterns `01` and `11` make neither predicate true. -/
theorem C8_counterexample :
    isQuery { initState [] none with flags := 0x4000 } = true ∧
    isResponse { initState [] none with flags := 0x4000 } = false ∧
    isResponse { initState [] none with flags := 0xC000 } = true ∧
    isQuery { initState [] none with flags := 0xC000 } = false := by
  refine ⟨rfl, rfl, rfl, rfl⟩

/-- C8 amended: the QR mask is one bit (bit 15): `is_query` holds iff
bit 15 of `flags` is clear, `is_response` holds iff it is set — so for
every flag value exactly one of the two holds — and `truncated` holds iff
the TC bit (bit 9) is set. -/
theorem C8_amended (st : Packet) :
    (isQuery st = true ↔ st.flags.testBit 15 = false) ∧
    (isResponse st = true ↔ st.flags.testBit 15 = true) ∧
    (isQuery st = !isResponse st) ∧
    (truncated st = true ↔ st.flags.testBit 9 = true) := by
  have h15 : st.flags &&& 32768 = (st.flags.testBit 15).toNat * 32768 := by
    have h := Nat.and_two_pow st.flags 15
    norm_num at h
    exact h
  have h9 : st.flags &&& 512 = (st.flags.testBit 9).toNat * 512 := by
    have h := Nat.and_two_pow st.flags 9
    norm_num at h
    exact h
  cases hb : st.flags.testBit 15 <;> cases hc : st.flags.testBit 9 <;>
    simp [isQuery, isResponse, truncated, hb, hc, FLAGS_QR_QUERY, FLAGS_QR_RESPONSE,
      FLAGS_QR_MASK, FLAGS_TC, h15, h9]

/-! ### C10 -/

/-- C10: fixed-length payload reads truncate at the end of the buffer and
never fail: a slice read returns `min n (length - off)` bytes (so an
empty string when the read starts at or past the end), and an A record
whose 4 declared address bytes are cut off by the end of the packet is
still produced, without error, carrying fewer than 4 address bytes. -/
theorem C10_truncated_read (data : Bytes) (off n : Nat) (domain : Labels)
    (qclass : Nat) (ttl : Int) (len2 : Nat) (scope : Option Nat) (cache : Cache)
    (h : data.length < off + 4) :
    (slice data off n).length = min n (data.length - off) ∧
    (data.length ≤ off → slice data off n = []) ∧
    (readRecord data scope domain TYPE_A qclass ttl len2 off cache).1 =
      .ok (some (.address domain TYPE_A qclass ttl (slice data off 4) none)) ∧
    (slice data off 4).length < 4 := by
  refine ⟨?_, ?_, ?_, ?_⟩
  · simp [slice]
  · intro hle
    simp [slice, List.drop_eq_nil_of_le hle]
  · rfl
  · simp only [slice, List.length_take, List.length_drop]
    omega

/-! ### C7 -/

lemma readBitmap_stop (data : Bytes) (fuel off end2 : Nat) (h : ¬off < end2) :
    readBitmap data (fuel + 1) off end2 = .ok ([], off) := by
  rw [readBitmap.eq_2, if_neg h]

lemma readBitmap_go (data : Bytes) (fuel off end2 w blen : Nat) (h : off < end2)
    (hw : byteAt data off = .ok w) (hb : byteAt data (off + 1) = .ok blen) :
    readBitmap data (fuel + 1) off end2 =
      match readBitmap data fuel (off + 2 + blen) end2 with
      | .ok (rest, fin) => .ok (bitmapTypes w (slice data (off + 2) blen) ++ rest, fin)
      | .error e => .error e := by
  rw [readBitmap.eq_2, if_pos h, hw, hb]

/-- C7: every element of an NSEC bitmap window's decoded type list arises
from a set bit — scanned most-significant-bit first within each byte, bit
`bit` of byte `i` contributing type number `window * 256 + i * 8 + bit` —
and a whole single-window bitmap (window byte, length byte, payload)
decodes to exactly `bitmapTypes window bs`; in particular the bitmap
bytes `[0x00, 0x01, 0x40]` decode to the present-type list `[1]`. -/
theorem C7_bitmap (window : Nat) (bs : Bytes) (t : Nat)
    (ht : t ∈ bitmapTypes window bs) :
    (∃ i bit, i < bs.length ∧ bit < 8 ∧ (bs.getD i 0) &&& (0x80 >>> bit) ≠ 0 ∧
      t = window * 256 + i * 8 + bit) ∧
    readBitmap (window :: bs.length :: bs) (bs.length + 3) 0 (2 + bs.length) =
      .ok (bitmapTypes window bs, 2 + bs.length) ∧
    readBitmap [0, 1, 0x40] 4 0 3 = .ok ([1], 3) := by
  refine ⟨?_, ?_, by decide⟩
  · unfold bitmapTypes at ht
    simp only [List.mem_flatMap, List.mem_map, List.mem_filter, List.mem_range] at ht
    obtain ⟨i, hi, bit, ⟨hbit, hset⟩, rfl⟩ := ht
    refine ⟨i, bit, hi, hbit, by simpa using hset, by omega⟩
  · have hb0 : byteAt (window :: bs.length :: bs) 0 = .ok window := by
      simp [byteAt]
    have hb1 : byteAt (window :: bs.length :: bs) 1 = .ok bs.length := by
      simp [byteAt]
    have hstop : readBitmap (window :: bs.length :: bs) (bs.length + 2)
        (0 + 2 + bs.length) (2 + bs.length) = .ok ([], 0 + 2 + bs.length) :=
      readBitmap_stop (window :: bs.length :: bs) (bs.length + 1) (0 + 2 + bs.length)
        (2 + bs.length) (by omega)
    have hgo := readBitmap_go (window :: bs.length :: bs) (bs.length + 2) 0
      (2 + bs.length) window bs.length (by omega) hb0 hb1
    rw [hstop] at hgo
    have hsl : slice (window :: bs.length :: bs) (0 + 2) bs.length = bs := by
      simp [slice]
    rw [show bs.length + 3 = (bs.length + 2) + 1 from rfl, hgo]
    simp only
    rw [hsl]
    simp

/-- C7 witness: the bitmap characterization at window 0, payload
`[0x40]`, member type 1. -/
theorem C7_bitmap_witness :
    (∃ i bit, i < [0x40].length ∧ bit < 8 ∧
      ([0x40].getD i 0) &&& (0x80 >>> bit) ≠ 0 ∧ 1 = 0 * 256 + i * 8 + bit) ∧
    readBitmap (0 :: [0x40].length :: [0x40]) ([0x40].length + 3) 0 (2 + [0x40].length) =
      .ok (bitmapTypes 0 [0x40], 2 + [0x40].length) ∧
    readBitmap [0, 1, 0x40] 4 0 3 = .ok ([1], 3) :=
  C7_bitmap 0 [0x40] 1 (by decide)

/-! ### C3 -/

/-- C3: at a compression-pointer byte (`0xC0 ≤ data[off]`), the name
decompressor fails with a decode error whenever (a) the 14-bit target
exceeds the buffer length, or equals the pointer's own offset, or is
already in the visited-pointer set; (b) the target is valid and served
from the cache but following it would push the accumulated label count
over `MAX_DNS_LABELS`; or (c) the target is valid, decoded recursively,
and the recursion's labels push the accumulated count over the limit.
The result is a returned error value of the total decode function — it
never loops and never returns a name. -/
theorem C3_pointer_guards (data : Bytes) (fuel off : Nat) (labels : Labels)
    (seen : List Nat) (cache : Cache) (link : Nat)
    (hlink : link = data.getD off 0 % 0x40 * 256 + data.getD (off + 1) 0)
    (h1 : off < data.length) (h2 : 0xC0 ≤ data.getD off 0)
    (h3 : off + 1 < data.length) :
    (link > data.length ∨ link = off ∨ link ∈ seen →
      (decodeLabelsAt data (fuel + 1) off labels seen cache).1 = .error .decodeError) ∧
    (∀ ls, cacheGet cache link = some ls → ls ≠ [] →
      ¬link > data.length → link ≠ off → link ∉ seen →
      labels.length + ls.length > MAX_DNS_LABELS →
      (decodeLabelsAt data (fuel + 1) off labels seen cache).1 = .error .decodeError) ∧
    (∀ newOff linked seen2 cache2,
      (cacheGet cache link).getD [] = [] →
      ¬link > data.length → link ≠ off → link ∉ seen →
      decodeLabelsAt data fuel link [] (link :: seen) cache =
        (.ok newOff, linked, seen2, cache2) →
      labels.length + linked.length > MAX_DNS_LABELS →
      (decodeLabelsAt data (fuel + 1) off labels seen cache).1 = .error .decodeError) := by
  have hb0 : ¬data.getD off 0 = 0 := by omega
  have hb40 : ¬data.getD off 0 < 0x40 := by omega
  have hbc0 : ¬data.getD off 0 < 0xC0 := by omega
  simp only [decodeLabelsAt]
  rw [if_pos h1, if_neg hb0, if_neg hb40, if_neg hbc0, if_pos h3, ← hlink]
  refine ⟨?_, ?_, ?_⟩
  · intro hdisj
    by_cases hA : link > data.length
    · rw [if_pos hA]
    · rw [if_neg hA]
      by_cases hB : link = off
      · rw [if_pos hB]
      · rw [if_neg hB]
        have hC : link ∈ seen := by
          rcases hdisj with h | h | h
          · exact absurd h hA
          · exact absurd h hB
          · exact h
        rw [if_pos hC]
  · intro ls hcg hne hA hB hC hlen
    rw [if_neg hA, if_neg hB, if_neg hC, hcg]
    simp only [Option.getD_some]
    rw [if_neg hne]
    rw [if_pos (by simpa using hlen)]
  · intro newOff linked seen2 cache2 hcg hA hB hC hrec hlen
    rw [if_neg hA, if_neg hB, if_neg hC]
    rw [if_pos hcg, hrec]
    simp only
    rw [if_pos (by simpa using hlen)]

/-- C3 witness: the guard behavior at the concrete buffer `[0xC0, 0xFF]`
read from offset 0, whose pointer target 255 lies beyond the two-byte
buffer. -/
theorem C3_pointer_guards_witness :
    (255 > ([0xC0, 0xFF] : Bytes).length ∨ 255 = 0 ∨ 255 ∈ ([] : List Nat) →
      (decodeLabelsAt [0xC0, 0xFF] 1 0 [] [] []).1 = .error .decodeError) ∧
    (∀ ls, cacheGet [] 255 = some ls → ls ≠ [] →
      ¬255 > ([0xC0, 0xFF] : Bytes).length → 255 ≠ 0 → 255 ∉ ([] : List Nat) →
      ([] : Labels).length + ls.length > MAX_DNS_LABELS →
      (decodeLabelsAt [0xC0, 0xFF] 1 0 [] [] []).1 = .error .decodeError) ∧
    (∀ newOff linked seen2 cache2,
      (cacheGet [] 255).getD [] = [] →
      ¬255 > ([0xC0, 0xFF] : Bytes).length → 255 ≠ 0 → 255 ∉ ([] : List Nat) →
      decodeLabelsAt [0xC0, 0xFF] 0 255 [] [255] [] =
        (.ok newOff, linked, seen2, cache2) →
      ([] : Labels).length + linked.length > MAX_DNS_LABELS →
      (decodeLabelsAt [0xC0, 0xFF] 1 0 [] [] []).1 = .error .decodeError) :=
  C3_pointer_guards [0xC0, 0xFF] 0 0 [] [] [] 255 (by decide) (by decide) (by decide)
    (by decide)

/-! ### C6 -/

/-- C6: a name that is a pointer hop to `t1`, itself a pointer hop to a
previously decoded and cached offset `t2`, decompresses (with the cache)
to exactly the label sequence that direct decoding of `t2` without any
cache produces — the cached entry is reused verbatim through both hops. -/
theorem C6_cached_pointer_hops (data : Bytes) (off t1 t2 g fuel : Nat) (cache : Cache)
    (ls : Labels)
    (h1 : off < data.length) (h2 : 0xC0 ≤ data.getD off 0) (h3 : off + 1 < data.length)
    (ht1 : data.getD off 0 % 0x40 * 256 + data.getD (off + 1) 0 = t1)
    (h5 : ¬t1 > data.length) (h6 : t1 ≠ off) (h7 : cacheGet cache t1 = none)
    (h8 : t1 < data.length) (h9 : 0xC0 ≤ data.getD t1 0) (h10 : t1 + 1 < data.length)
    (ht2 : data.getD t1 0 % 0x40 * 256 + data.getD (t1 + 1) 0 = t2)
    (h12 : ¬t2 > data.length) (h13 : t2 ≠ t1)
    (h14 : cacheGet cache t2 = some ls) (h15 : ls ≠ [])
    (h16 : ¬ls.length > MAX_DNS_LABELS)
    (h17 : (decodeLabelsAt data g t2 [] [] []).2.1 = ls) :
    (decodeLabelsAt data (fuel + 2) off [] [] cache).1 = .ok (off + 2) ∧
    (decodeLabelsAt data (fuel + 2) off [] [] cache).2.1 =
      (decodeLabelsAt data g t2 [] [] []).2.1 := by
  have hin0 : ¬data.getD t1 0 = 0 := by omega
  have hin40 : ¬data.getD t1 0 < 0x40 := by omega
  have hinc0 : ¬data.getD t1 0 < 0xC0 := by omega
  have hmem : t2 ∉ ([t1] : List Nat) := by simp [h13]
  have hb0 : ¬data.getD off 0 = 0 := by omega
  have hb40 : ¬data.getD off 0 < 0x40 := by omega
  have hbc0 : ¬data.getD off 0 < 0xC0 := by omega
  have inner : decodeLabelsAt data (fuel + 1) t1 [] [t1] cache =
      (.ok (t1 + 2), ls, [t1], cache) := by
    conv_lhs => rw [decodeLabelsAt.eq_2]
    rw [if_pos h8, if_neg hin0, if_neg hin40, if_neg hinc0, if_pos h10, ht2,
      if_neg h12, if_neg h13, if_neg hmem, h14]
    rw [if_neg (show ¬(((some ls : Option Labels)).getD [] = []) from h15)]
    rw [if_neg (show ¬((([] : Labels) ++ (some ls : Option Labels).getD []).length >
      MAX_DNS_LABELS) from by simpa using h16)]
    simp
  have houter : decodeLabelsAt data (fuel + 2) off [] [] cache =
      (.ok (off + 2), ls, [t1], cacheSet cache t1 ls) := by
    rw [show fuel + 2 = (fuel + 1) + 1 from rfl]
    conv_lhs => rw [decodeLabelsAt.eq_2]
    rw [if_pos h1, if_neg hb0, if_neg hb40, if_neg hbc0, if_pos h3, ht1,
      if_neg h5, if_neg h6, if_neg (List.not_mem_nil t1), h7]
    rw [if_pos (show ((none : Option Labels)).getD [] = [] from rfl)]
    rw [inner]
    simp only
    rw [if_neg (show ¬((([] : Labels) ++ ls).length > MAX_DNS_LABELS) from
      by simpa using h16)]
    simp
  rw [houter, h17]
  exact ⟨rfl, rfl⟩

/-- C6 witness: two chained pointer hops (offset 5 to 3 to 0) over a
seven-byte buffer whose offset 0 holds the label `x`, with offset 0
already cached. -/
theorem C6_cached_pointer_hops_witness :
    (decodeLabelsAt [1, 120, 0, 0xC0, 0, 0xC0, 3] (3 + 2) 5 [] []
      [(0, [[120]])]).1 = .ok (5 + 2) ∧
    (decodeLabelsAt [1, 120, 0, 0xC0, 0, 0xC0, 3] (3 + 2) 5 [] []
      [(0, [[120]])]).2.1 =
    (decodeLabelsAt [1, 120, 0, 0xC0, 0, 0xC0, 3] 20 0 [] [] []).2.1 :=
  C6_cached_pointer_hops [1, 120, 0, 0xC0, 0, 0xC0, 3] 5 3 0 20 3 [(0, [[120]])]
    [[120]] (by decide) (by decide) (by decide) (by decide) (by decide) (by decide)
    (by decide) (by decide) (by decide) (by decide) (by decide) (by decide) (by decide)
    (by decide) (by decide) (by decide) (by decide)

/-! ### C9 -/

lemma nodup_bounded_length (l : List Nat) (B : Nat) (hnd : l.Nodup)
    (hb : ∀ x ∈ l, x < B) : l.length ≤ B := by
  have h1 : l.toFinset.card = l.length := List.toFinset_card_of_nodup hnd
  have h2 : l.toFinset ⊆ Finset.range B := by
    intro x hx
    rw [List.mem_toFinset] at hx
    exact Finset.mem_range.mpr (hb x hx)
  have h3 := Finset.card_le_card h2
  rw [h1, Finset.card_range] at h3
  exact h3

/-- Fuel sufficiency for the name decompressor: with a duplicate-free
visited set of in-range offsets, `(L + 1 - seen) * (L + 1) + (L - off) + 1`
fuel units never run out — each loop iteration strictly advances the
offset and each followed pointer adds a fresh in-range offset to the
visited set. -/
lemma decodeLabelsAt_fuel_sufficient (data : Bytes) :
    ∀ (fuel off : Nat) (labels : Labels) (seen : List Nat) (cache : Cache),
      seen.Nodup → (∀ x ∈ seen, x ≤ data.length) →
      (data.length + 1 - seen.length) * (data.length + 1) + (data.length - off) + 1 ≤
        fuel →
      (decodeLabelsAt data fuel off labels seen cache).1 ≠ .error .fuelOut := by
  intro fuel
  induction fuel with
  | zero =>
    intro off labels seen cache hnd hb hle
    exact absurd hle (by omega)
  | succ fuel ih =>
    intro off labels seen cache hnd hb hle
    simp only [decodeLabelsAt]
    by_cases hoff : off < data.length
    case neg =>
      rw [if_neg hoff]
      simp
    case pos =>
      rw [if_pos hoff]
      by_cases h0 : data.getD off 0 = 0
      · rw [if_pos h0]
        simp
      · rw [if_neg h0]
        by_cases h40 : data.getD off 0 < 0x40
        · rw [if_pos h40]
          refine ih (off + 1 + data.getD off 0) _ seen cache hnd hb ?_
          have hstep : data.length - (off + 1 + data.getD off 0) + 1 ≤
              data.length - off := by omega
          omega
        · rw [if_neg h40]
          by_cases hc0 : data.getD off 0 < 0xC0
          · rw [if_pos hc0]
            simp
          · rw [if_neg hc0]
            by_cases hi : off + 1 < data.length
            · rw [if_pos hi]
              set link := data.getD off 0 % 0x40 * 256 + data.getD (off + 1) 0 with hl
              by_cases hA : link > data.length
              · rw [if_pos hA]
                simp
              · rw [if_neg hA]
                by_cases hB : link = off
                · rw [if_pos hB]
                  simp
                · rw [if_neg hB]
                  by_cases hC : link ∈ seen
                  · rw [if_pos hC]
                    simp
                  · rw [if_neg hC]
                    by_cases hD : (cacheGet cache link).getD [] = []
                    · rw [if_pos hD]
                      have hndl : (link :: seen).Nodup := List.nodup_cons.mpr ⟨hC, hnd⟩
                      have hbl : ∀ x ∈ link :: seen, x ≤ data.length := by
                        intro x hx
                        rcases List.mem_cons.mp hx with rfl | hx2
                        · omega
                        · exact hb x hx2
                      have hslen : seen.length ≤ data.length := by
                        have h4 := nodup_bounded_length (link :: seen) (data.length + 1)
                          hndl (by intro x hx; have := hbl x hx; omega)
                        simpa using h4
                      have hbound : (data.length + 1 - (link :: seen).length) *
                            (data.length + 1) + (data.length - link) + 1 ≤ fuel := by
                        have hm : (data.length + 1 - seen.length) * (data.length + 1) =
                            (data.length - seen.length) * (data.length + 1) +
                              (data.length + 1) := by
                          have hsub : data.length + 1 - seen.length =
                              (data.length - seen.length) + 1 := by omega
                          rw [hsub, Nat.add_mul, one_mul]
                        rw [hm] at hle
                        have hcons : (link :: seen).length = seen.length + 1 := rfl
                        rw [hcons]
                        have hsub2 : data.length + 1 - (seen.length + 1) =
                            data.length - seen.length := by omega
                        rw [hsub2]
                        omega
                      have hrec := ih link [] (link :: seen) cache hndl hbl hbound
                      rcases hres : decodeLabelsAt data fuel link [] (link :: seen) cache
                        with ⟨r, linked, seen2, cache2⟩
                      rw [hres] at hrec
                      cases r with
                      | ok v =>
                        simp only
                        by_cases hE : (labels ++ linked).length > MAX_DNS_LABELS
                        · rw [if_pos hE]
                          simp
                        · rw [if_neg hE]
                          simp
                      | error e =>
                        intro hgoal
                        exact hrec hgoal
                    · rw [if_neg hD]
                      by_cases hE :
                          (labels ++ (cacheGet cache link).getD []).length >
                            MAX_DNS_LABELS
                      · rw [if_pos hE]
                        simp
                      · rw [if_neg hE]
                        simp
            · rw [if_neg hi]
              simp

/-- Fuel sufficiency for the NSEC bitmap loop: `end - off + 1` fuel units
never run out, because every iteration advances the offset by at least
two bytes (so by at least one) while consuming one unit. -/
lemma readBitmap_fuel_sufficient (data : Bytes) :
    ∀ (fuel boff bend : Nat), bend - boff + 1 ≤ fuel →
      readBitmap data fuel boff bend ≠ .error .fuelOut := by
  intro fuel
  induction fuel with
  | zero =>
    intro boff bend h
    exact absurd h (by omega)
  | succ fuel ih =>
    intro boff bend h
    by_cases hlt : boff < bend
    · rcases hw : byteAt data boff with e | w
      · rw [readBitmap.eq_2, if_pos hlt, hw]
        intro hgoal
        exact Err.noConfusion (Except.error.inj hgoal)
      · rcases hb2 : byteAt data (boff + 1) with e2 | blen
        · rw [readBitmap.eq_2, if_pos hlt, hw, hb2]
          intro hgoal
          exact Err.noConfusion (Except.error.inj hgoal)
        · rw [readBitmap.eq_2, if_pos hlt, hw, hb2]
          simp only
          have hrec := ih (boff + 2 + blen) bend (by omega)
          rcases hres : readBitmap data fuel (boff + 2 + blen) bend with e3 | ⟨rest, fin⟩
          · rw [hres] at hrec
            intro hgoal
            exact hrec hgoal
          · intro hgoal
            exact Except.noConfusion hgoal
    · rw [readBitmap.eq_2, if_neg hlt]
      intro hgoal
      exact Except.noConfusion hgoal

/-- C9: decoding terminates on every finite buffer.  Name decompression
never exhausts the fuel `fuelFor data = (length + 2)^2` that `readName`
supplies (within one label run the offset strictly increases and each
followed pointer adds a fresh offset, bounded by the buffer length, to
the visited set), and the NSEC bitmap loop, which advances its cursor by
at least two bytes per iteration, never exhausts `end - off + 1` fuel
units. -/
theorem C9_termination (data : Bytes) (off : Nat) (labels : Labels) (cache : Cache)
    (bdata : Bytes) (bfuel boff bend : Nat)
    (hfuel : bend - boff + 1 ≤ bfuel) :
    (decodeLabelsAt data (fuelFor data) off labels [] cache).1 ≠ .error .fuelOut ∧
    readBitmap bdata bfuel boff bend ≠ .error .fuelOut := by
  constructor
  · apply decodeLabelsAt_fuel_sufficient data (fuelFor data) off labels [] cache
      List.nodup_nil (by simp)
    have hexp : (data.length + 2) ^ 2 =
        (data.length + 1) * (data.length + 1) + 2 * data.length + 3 := by ring
    rw [fuelFor, hexp]
    have : (data.length + 1 - ([] : List Nat).length) * (data.length + 1) =
        (data.length + 1) * (data.length + 1) := by simp
    rw [this]
    omega
  · exact readBitmap_fuel_sufficient bdata bfuel boff bend hfuel

/-- C9 witness: fuel sufficiency at the empty buffer and a trivial bitmap
range. -/
theorem C9_termination_witness :
    (decodeLabelsAt [] (fuelFor []) 0 [] [] []).1 ≠ .error .fuelOut ∧
    readBitmap [] 1 0 0 ≠ .error .fuelOut :=
  C9_termination [] 0 [] [] [] 1 0 0 (by decide)

/-- C10 witness: the truncated-A-record behavior at a concrete two-byte
buffer read from offset 1. -/
theorem C10_truncated_read_witness :
    (slice [1, 2] 1 7).length = min 7 ([1, 2].length - 1) ∧
    ([1, 2].length ≤ 1 → slice [1, 2] 1 7 = []) ∧
    (readRecord [1, 2] none [[97]] TYPE_A 1 0 0 1 []).1 =
      .ok (some (.address [[97]] TYPE_A 1 0 (slice [1, 2] 1 4) none)) ∧
    (slice [1, 2] 1 4).length < 4 :=
  C10_truncated_read [1, 2] 1 7 [[97]] 1 0 0 none [] (by decide)

end Zeroconf
